import Mathlib

/-!
Shallow embedding of `pkg/utils/helmrepo.go` from
`multicloud-operators-subscription`: the helm-repo index construction and
the subscription filtering pipeline (`GenerateHelmIndexFile`,
`filterCharts`, `removeNoMatchingName`, `filterOnVersion`,
`checkKeywords`, `checkTillerVersion`, `checkVersion`,
`GetPackageAlias`), together with models of the external collaborators
the source delegates to (the blang/semver range matcher, the helm
`repo.IndexFile` entry operations, and the repository's
`KeywordsChecker`, which lives outside the embedded file).

Go maps `map[string][]*repo.ChartVersion` are embedded as association
lists `List (String × List ChartVersion)`; Go's snapshot-the-keys-then-
delete pattern over a map with unique keys coincides with filtering the
association list. Errors are explicit `Option String` results.
-/

namespace HelmRepo

/-! ## Character-list string helpers (Go `strings` / `path/filepath`) -/

/-- Split a character list at every occurrence of `sep`, like Go
`strings.Split` restricted to a single-character separator. -/
def splitOnChar (sep : Char) : List Char → List (List Char)
  | [] => [[]]
  | c :: cs =>
    let r := splitOnChar sep cs
    if c == sep then [] :: r
    else
      match r with
      | [] => [[c]]
      | h :: t => (c :: h) :: t

/-- `breakAt sep l = (before, after?)`: the characters before the first
occurrence of `sep`, and the characters after it (`none` when `sep` does
not occur). -/
def breakAt (sep : Char) : List Char → List Char × Option (List Char)
  | [] => ([], none)
  | c :: cs =>
    if c == sep then ([], some cs)
    else
      let r := breakAt sep cs
      (c :: r.1, r.2)

/-- Fuel-driven worker for `stringsSplit`. The accumulator holds the
current fragment reversed. -/
def splitListAux (sep : List Char) : Nat → List Char → List Char → List (List Char)
  | 0, acc, l => [acc.reverse ++ l]
  | fuel + 1, acc, l =>
    if !sep.isEmpty && sep.isPrefixOf l then
      acc.reverse :: splitListAux sep fuel [] (l.drop sep.length)
    else
      match l with
      | [] => [acc.reverse]
      | c :: cs => splitListAux sep fuel (c :: acc) cs

/-- Go `strings.Split` for a non-empty separator: all substrings between
occurrences of `sep`. -/
def stringsSplit (s sep : String) : List String :=
  (splitListAux sep.toList (s.toList.length + 1) [] s.toList).map
    (fun cs => String.mk cs)

/-- Go `strings.SplitAfter`: like `strings.Split` but each part except
the last keeps the separator appended. -/
def appendToAllButLast (sep : String) : List String → List String
  | [] => []
  | [x] => [x]
  | x :: y :: t => (x ++ sep) :: appendToAllButLast sep (y :: t)

/-- Go `strings.SplitAfter` for a non-empty separator. -/
def stringsSplitAfter (s sep : String) : List String :=
  appendToAllButLast sep (stringsSplit s sep)

/-- Go `filepath.Base`: the last element of the path after removing
trailing slashes; `"."` for the empty path, `"/"` for an all-slash
path. -/
def filepathBase (s : String) : String :=
  if s.toList.isEmpty then "."
  else
    let rev := (s.toList.reverse).dropWhile (fun c => c == '/')
    if rev.isEmpty then "/"
    else String.mk ((rev.takeWhile (fun c => !(c == '/'))).reverse)

/-! ## Semantic versions and ranges

Modelled from the spec: the `VersionRangeMatcher` component (§4.1) backed
by the external blang/semver library, which is not part of the embedded
source file.  `parseVersion` parses an exact three-component semantic
version with optional pre-release identifiers and build metadata;
`parseRange` parses a conjunction of comparators such as
`">=1.2.3 <2.0.0"`; `rangeSatisfies` answers containment.  Parse
failures are `none`. -/

/-- A pre-release identifier: numeric identifiers order below
alphanumeric ones. -/
inductive PreId where
  | num (n : Nat)
  | str (cs : List Char)
  deriving DecidableEq, Repr

/-- A parsed semantic version `major.minor.patch` with pre-release
identifiers (empty list when absent). Build metadata is ignored for
precedence, as the semantic-versioning rules demand. -/
structure SemVersion where
  major : Nat
  minor : Nat
  patch : Nat
  pre : List PreId
  deriving DecidableEq, Repr

/-- Parse a strictly numeric component: non-empty, all digits, no
leading zero. -/
def parseNumStrict (cs : List Char) : Option Nat :=
  match cs with
  | [] => none
  | '0' :: _ :: _ => none
  | _ =>
    if cs.all Char.isDigit then
      some (cs.foldl (fun n c => n * 10 + (c.toNat - '0'.toNat)) 0)
    else none

/-- A valid pre-release identifier character: alphanumeric or hyphen. -/
def isPreChar (c : Char) : Bool :=
  c.isAlphanum || c == '-'

/-- Parse one pre-release identifier: numeric identifiers must have no
leading zero; otherwise alphanumeric/hyphen, non-empty. -/
def parsePreId (cs : List Char) : Option PreId :=
  if cs.isEmpty then none
  else if cs.all Char.isDigit then
    match parseNumStrict cs with
    | some n => some (.num n)
    | none => none
  else if cs.all isPreChar then some (.str cs)
  else none

/-- Modelled from the spec: parse an exact semantic version
(`VersionRangeMatcher`’s candidate parser; blang/semver `Parse`). -/
def parseVersion (s : String) : Option SemVersion :=
  let afterBuild := (breakAt '+' s.toList).1
  let core := (breakAt '-' afterBuild).1
  let preOpt := (breakAt '-' afterBuild).2
  match splitOnChar '.' core with
  | [ma, mi, pa] =>
    match parseNumStrict ma, parseNumStrict mi, parseNumStrict pa with
    | some M, some m, some p =>
      match preOpt with
      | none => some ⟨M, m, p, []⟩
      | some pre =>
        match (splitOnChar '.' pre).mapM parsePreId with
        | some ids => some ⟨M, m, p, ids⟩
        | none => none
    | _, _, _ => none
  | _ => none

/-- Order two pre-release identifiers: numeric before alphanumeric,
numeric by value, alphanumeric lexicographically by character code. -/
def comparePreId : PreId → PreId → Ordering
  | .num a, .num b => compare a b
  | .num _, .str _ => .lt
  | .str _, .num _ => .gt
  | .str a, .str b => compare (String.mk a) (String.mk b)

/-- Order two pre-release identifier lists lexicographically; a strict
prefix is smaller. -/
def comparePreList : List PreId → List PreId → Ordering
  | [], [] => .eq
  | [], _ :: _ => .lt
  | _ :: _, [] => .gt
  | a :: as', b :: bs' =>
    match comparePreId a b with
    | .eq => comparePreList as' bs'
    | o => o

/-- Semantic-version precedence: numeric components first, then a
version without pre-release identifiers ranks above one with them. -/
def compareVersion (a b : SemVersion) : Ordering :=
  match compare a.major b.major with
  | .eq =>
    match compare a.minor b.minor with
    | .eq =>
      match compare a.patch b.patch with
      | .eq =>
        match a.pre, b.pre with
        | [], [] => .eq
        | [], _ :: _ => .gt
        | _ :: _, [] => .lt
        | _, _ => comparePreList a.pre b.pre
      | o => o
    | o => o
  | o => o

/-- A comparator operation in a range expression. -/
inductive RangeOp where
  | eq
  | ne
  | gt
  | lt
  | ge
  | le
  deriving DecidableEq, Repr

/-- A parsed range: a conjunction of comparators. -/
def SemRange : Type := List (RangeOp × SemVersion)

/-- Parse one comparator token: an optional inequality operator followed
by an exact version; a bare version means equality. -/
def parseComparator (cs : List Char) : Option (RangeOp × SemVersion) :=
  let (op, rest) :=
    match cs with
    | '>' :: '=' :: r => (RangeOp.ge, r)
    | '<' :: '=' :: r => (RangeOp.le, r)
    | '!' :: '=' :: r => (RangeOp.ne, r)
    | '>' :: r => (RangeOp.gt, r)
    | '<' :: r => (RangeOp.lt, r)
    | '=' :: r => (RangeOp.eq, r)
    | r => (RangeOp.eq, r)
  match parseVersion (String.mk rest) with
  | some v => some (op, v)
  | none => none

/-- Modelled from the spec: parse a semantic-version range expression —
whitespace-separated comparators conjoined with AND (blang/semver
`ParseRange`).  An expression with no token is a parse error. -/
def parseRange (s : String) : Option SemRange :=
  let toks := (splitOnChar ' ' s.toList).filter (fun t => !t.isEmpty)
  match toks with
  | [] => none
  | _ => toks.mapM parseComparator

/-- Does the comparison outcome satisfy the comparator operation? -/
def rangeOpHolds (op : RangeOp) (o : Ordering) : Bool :=
  match op with
  | .eq => o == .eq
  | .ne => !(o == .eq)
  | .gt => o == .gt
  | .lt => o == .lt
  | .ge => !(o == .lt)
  | .le => !(o == .gt)

/-- Modelled from the spec: a candidate version satisfies a range iff it
satisfies every comparator of the conjunction. -/
def rangeSatisfies (r : SemRange) (v : SemVersion) : Bool :=
  List.all r (fun c => rangeOpHolds c.1 (compareVersion v c.2))

/-! ## Data model (`appv1.Subscription`, `repo.IndexFile`) -/

/-- Chart manifest metadata (`chart.Metadata`): the fields the embedded
source reads.  The Go getters return the field, or `""` when unset, so
optional string fields are sentinel empty strings as in the source. -/
structure ChartMetadata where
  name : String
  version : String
  tillerVersion : String
  keywords : List String
  deriving DecidableEq, Repr

/-- One entry of a helm repo index (`repo.ChartVersion`): the chart
metadata plus the fields `repo.IndexFile.Add` fills in. -/
structure ChartVersion where
  metadata : ChartMetadata
  urls : List String
  digest : String
  deriving DecidableEq, Repr

/-- `chartVersion.GetName()`. -/
def ChartVersion.getName (cv : ChartVersion) : String := cv.metadata.name

/-- `chartVersion.GetVersion()`. -/
def ChartVersion.getVersion (cv : ChartVersion) : String := cv.metadata.version

/-- `chartVersion.GetTillerVersion()`. -/
def ChartVersion.getTillerVersion (cv : ChartVersion) : String :=
  cv.metadata.tillerVersion

/-- A keyword requirement of a label selector.  Modelled from the spec
(§4.2): requirements are existence/negation predicates over the
package's keyword set, conjoined with AND. -/
inductive KeywordRequirement where
  | keyExists (key : String)
  | keyNotExists (key : String)
  deriving DecidableEq, Repr

/-- `metav1.LabelSelector`, modelled from the spec (§4.2) as its list of
requirements. -/
structure LabelSelector where
  requirements : List KeywordRequirement
  deriving DecidableEq, Repr

/-- `appv1.PackageFilter`: version-range expression (sentinel `""` when
unset), the annotations map (`none` embeds Go's nil map), and the
optional label selector. -/
structure PackageFilter where
  version : String
  annotations : Option (List (String × String))
  labelSelector : Option LabelSelector
  deriving DecidableEq, Repr

/-- Lookup in a Go string map embedded as an association list. -/
def mapLookup (l : List (String × String)) (k : String) : Option String :=
  match l.find? (fun p => p.1 == k) with
  | some p => some p.2
  | none => none

/-- `appv1.Overrides`: a package override entry. -/
structure PackageOverride where
  packageName : String
  packageAlias : String
  deriving DecidableEq, Repr

/-- `appv1.SubscriptionSpec`: the fields the embedded source reads. -/
structure SubscriptionSpec where
  package : String
  packageFilter : Option PackageFilter
  packageOverrides : List PackageOverride
  deriving DecidableEq, Repr

/-- `appv1.Subscription`: object metadata (namespace/name) plus spec. -/
structure Subscription where
  nspace : String
  name : String
  spec : SubscriptionSpec
  deriving DecidableEq, Repr

/-- `repo.IndexFile`: the `Entries` map from chart name to its chart
versions, embedded as an association list with unique keys. -/
structure IndexFile where
  entries : List (String × List ChartVersion)
  deriving DecidableEq, Repr

/-- `repo.NewIndexFile()`: an index with no entries. -/
def newIndexFile : IndexFile := ⟨[]⟩

/-- Modelled from the spec: the external versioned-index library's
`addEntry` (`repo.IndexFile.Add`): build a `ChartVersion` from the
metadata, the archive URL derived from `baseURL` and `filename`, and the
digest, and append it to the bucket keyed by the chart's name (creating
the bucket if absent). -/
def indexAddEntry (name : String) (cv : ChartVersion) :
    List (String × List ChartVersion) → List (String × List ChartVersion)
  | [] => [(name, [cv])]
  | (k, vs) :: t =>
    if k == name then (k, vs ++ [cv]) :: t else (k, vs) :: indexAddEntry name cv t

/-- See `indexAddEntry`; packages the appended entry. -/
def indexAdd (idx : IndexFile) (md : ChartMetadata) (filename baseURL digest : String) :
    IndexFile :=
  let url := if baseURL == "" then filename else baseURL ++ "/" ++ filename
  let cv : ChartVersion := ⟨md, [url], digest⟩
  ⟨indexAddEntry md.name cv idx.entries⟩

/-- Insert a chart version into a bucket sorted descending by parsed
version; an unparsable version ranks lowest. -/
def insertByVersionDesc (cv : ChartVersion) : List ChartVersion → List ChartVersion
  | [] => [cv]
  | c :: cs =>
    let keyOf := fun (x : ChartVersion) =>
      match parseVersion x.getVersion with
      | some v => some v
      | none => none
    let le : Bool :=
      match keyOf cv, keyOf c with
      | some a, some b => !(compareVersion a b == .lt)
      | some _, none => true
      | none, some _ => false
      | none, none => true
    if le then cv :: c :: cs else c :: insertByVersionDesc cv cs

/-- Modelled from the spec: the external versioned-index library's
`sortEntries` (`repo.IndexFile.SortEntries`): sort every bucket into
descending-version order. -/
def sortEntries (idx : IndexFile) : IndexFile :=
  ⟨idx.entries.map (fun e => (e.1, e.2.foldr insertByVersionDesc []))⟩

/-! ## The embedded source functions -/

/-- The loop of `GetPackageAlias` over `sub.Spec.PackageOverrides`. -/
def getPackageAliasLoop (packageName : String) : List PackageOverride → String
  | [] => ""
  | o :: t =>
    if o.packageName == packageName then
      if !(o.packageAlias == "") then o.packageAlias else getPackageAliasLoop packageName t
    else getPackageAliasLoop packageName t

/-- `GetPackageAlias`: the alias of the first override whose name
matches and whose alias is non-empty; `""` otherwise. -/
def getPackageAlias (sub : Subscription) (packageName : String) : String :=
  getPackageAliasLoop packageName sub.spec.packageOverrides

/-- `removeNoMatchingName`: with a non-empty `sub.Spec.Package`, delete
every bucket whose key differs from it; with an empty one, return the
`subsciption.spec.name is missing` error and touch nothing.  The Go
snapshot-keys-then-delete loop over the map is filtering of the
association list. -/
def removeNoMatchingName (sub : Subscription) (idx : IndexFile) :
    IndexFile × Option String :=
  if !(sub.spec.package == "") then
    (⟨idx.entries.filter (fun e => e.1 == sub.spec.package)⟩, none)
  else
    (idx, some ("subsciption.spec.name is missing for subscription: " ++
      sub.nspace ++ "/" ++ sub.name))

/-- Modelled from the spec: `KeywordsChecker` (defined in this
repository outside the embedded file): an absent selector passes
unconditionally; otherwise every requirement must hold of the keyword
set, with implicit "exists" semantics for the keys (§4.2). -/
def keywordsChecker (sel : Option LabelSelector) (keywords : List String) : Bool :=
  match sel with
  | none => true
  | some s =>
    s.requirements.all (fun r =>
      match r with
      | .keyExists k => keywords.contains k
      | .keyNotExists k => !(keywords.contains k))

/-- `checkKeywords`: extract the label selector from the package filter
(when present) and delegate to `KeywordsChecker`. -/
def checkKeywords (sub : Subscription) (cv : ChartVersion) : Bool :=
  let labelSelector :=
    match sub.spec.packageFilter with
    | some pf => pf.labelSelector
    | none => none
  keywordsChecker labelSelector cv.metadata.keywords

/-- `checkTillerVersion`: when the filter's `tillerVersion` annotation is
present and the chart version carries a non-empty tiller version, parse
the chart's tiller version as a RANGE and the filter's value as an exact
version, and answer containment (parse failures are non-matches); in
every other case pass. -/
def checkTillerVersion (sub : Subscription) (cv : ChartVersion) : Bool :=
  match sub.spec.packageFilter with
  | some pf =>
    match pf.annotations with
    | some ann =>
      match mapLookup ann "tillerVersion" with
      | some filterTillerVersion =>
        let tillerVersion := cv.getTillerVersion
        if !(tillerVersion == "") then
          match parseRange tillerVersion with
          | none => false
          | some tillerVersionVersion =>
            match parseVersion filterTillerVersion with
            | none => false
            | some fv => rangeSatisfies tillerVersionVersion fv
        else true
      | none => true
    | none => true
  | none => true

/-- `checkVersion`: when the filter's version-range expression is set,
parse the chart's version as an exact version and the expression as a
range, and answer containment (parse failures are non-matches);
otherwise pass. -/
def checkVersion (sub : Subscription) (cv : ChartVersion) : Bool :=
  match sub.spec.packageFilter with
  | some pf =>
    if !(pf.version == "") then
      match parseVersion cv.getVersion with
      | none => false
      | some versionVersion =>
        match parseRange pf.version with
        | none => false
        | some filterVersion => rangeSatisfies filterVersion versionVersion
    else true
  | none => true

/-- The per-version conjunction of `filterOnVersion`'s inner loop. -/
def versionPasses (sub : Subscription) (cv : ChartVersion) : Bool :=
  checkKeywords sub cv && checkTillerVersion sub cv && checkVersion sub cv

/-- The per-bucket body of `filterOnVersion`'s loop: the surviving chart
versions of one bucket — `some` of the pruned bucket when any survive,
`none` (bucket deleted) when none do. -/
def bucketSurvivors (sub : Subscription) (e : String × List ChartVersion) :
    Option (String × List ChartVersion) :=
  if (e.2.filter (fun cv => versionPasses sub cv)).length > 0 then
    some (e.1, e.2.filter (fun cv => versionPasses sub cv))
  else none

/-- `filterOnVersion`: for every bucket, keep the chart versions passing
the keyword, tiller-version and version checks; reinstall the bucket
when any survive, delete it when none do.  The Go snapshot-then-mutate
loop over the map is this `filterMap` on the association list. -/
def filterOnVersion (sub : Subscription) (idx : IndexFile) : IndexFile :=
  ⟨idx.entries.filterMap (bucketSurvivors sub)⟩

/-- `filterCharts`: run the name filter — DISCARDING its error, as the
source's `_ =` does — then the per-version filter. -/
def filterCharts (sub : Subscription) (idx : IndexFile) : IndexFile :=
  filterOnVersion sub (removeNoMatchingName sub idx).1

/-- The outcome of a `GenerateHelmIndexFile` run.  The source indexes
`strings.SplitAfter(chartParentDir, repoRoot+"/")[ 1]` unconditionally;
when the separator does not occur in the parent directory that slice
access is an index-out-of-range runtime crash, embedded as the
`crashed` outcome.  Otherwise the run yields the returned pair. -/
inductive GenResult where
  | crashed
  | result (idx : IndexFile) (err : Option String)
  deriving DecidableEq, Repr

/-- The slice `strings.SplitAfter(chartParentDir, repoRoot+"/")` from
index 1 on, for one chart directory: its head is the `chartBaseDir` the
source reads, and when it is empty the source's slice access crashes. -/
def baseDirSplit (repoRoot chartDir : String) : List String :=
  (stringsSplitAfter ((stringsSplit chartDir (filepathBase chartDir)).headD "")
    (repoRoot ++ "/")).drop 1

/-- The loop body of `GenerateHelmIndexFile` over the chart directories:
derive the folder name and repo-relative base directory — crashing, as
the source's unconditional slice access does, when `repoRoot+"/"` does
not occur in the parent directory — then load the `Chart.yaml` manifest
through the external loader `load`, and either abort with the load
error or add the chart to the index. -/
def genLoop (load : String → Except String ChartMetadata) (repoRoot : String) :
    List String → IndexFile → GenResult
  | [], idx => .result idx none
  | chartDir :: rest, idx =>
    let chartFolderName := filepathBase chartDir
    match baseDirSplit repoRoot chartDir with
    | [] => .crashed
    | chartBaseDir :: _ =>
      match load (chartDir ++ "Chart.yaml") with
      | .error e => .result idx (some e)
      | .ok chartMetadata =>
        genLoop load repoRoot rest
          (indexAdd idx chartMetadata chartFolderName chartBaseDir
            "generated-by-multicloud-operators-subscription")

/-- `GenerateHelmIndexFile`: build the index from the chart directories;
on any load failure return the partial index and the error at once (no
sorting, no filtering); on success sort the entries, filter them with
the subscription, and return a nil error.  A crash of the loop is a
crash of the whole call. -/
def generateHelmIndexFile (load : String → Except String ChartMetadata)
    (sub : Subscription) (repoRoot : String) (chartDirs : List String) :
    GenResult :=
  match genLoop load repoRoot chartDirs newIndexFile with
  | .crashed => .crashed
  | .result idx (some e) => .result idx (some e)
  | .result idx none => .result (filterCharts sub (sortEntries idx)) none

/-! ## Spec-side definitions for refinement comparisons -/

/-- The secondary-version check as the SPEC words it: parse the
policy's value as the range, the chart's secondary tool version as the
exact candidate, succeed iff the candidate satisfies the range, and
treat parse failures as non-matches.  Kept separate from
`checkTillerVersion` (the source's orientation) for comparison. -/
def specSecondaryCheck (rangeExpr candidate : String) : Bool :=
  match parseRange rangeExpr, parseVersion candidate with
  | some r, some v => rangeSatisfies r v
  | _, _ => false

/-- The optional filters of the policy are all unset: no label selector,
no `tillerVersion` annotation, no version-range expression. -/
def noOptionalFilters (sub : Subscription) : Bool :=
  match sub.spec.packageFilter with
  | none => true
  | some pf =>
    (match pf.labelSelector with
     | none => true
     | some _ => false) &&
    (match pf.annotations with
     | none => true
     | some ann => (mapLookup ann "tillerVersion").isNone) &&
    (pf.version == "")

/-! ## Shared helper lemmas -/

theorem filterMap_id_of_mem {α : Type} (f : α → Option α) :
    ∀ l : List α, (∀ a ∈ l, f a = some a) → l.filterMap f = l := by
  intro l h
  induction l with
  | nil => rfl
  | cons a t ih =>
    rw [List.filterMap_cons, h a (List.mem_cons_self a t)]
    rw [ih (fun b hb => h b (List.mem_cons_of_mem a hb))]

theorem bucketSurvivors_eq_some (sub : Subscription)
    (e e' : String × List ChartVersion) (h : bucketSurvivors sub e = some e') :
    e' = (e.1, e.2.filter (fun cv => versionPasses sub cv)) ∧
    (e.2.filter (fun cv => versionPasses sub cv)).length > 0 := by
  rw [bucketSurvivors] at h
  split at h
  next hlen => exact ⟨(Option.some.inj h).symm, hlen⟩
  next => cases h

theorem bucketSurvivors_fixed (sub : Subscription)
    (e e' : String × List ChartVersion) (h : bucketSurvivors sub e = some e') :
    bucketSurvivors sub e' = some e' := by
  obtain ⟨he', hlen⟩ := bucketSurvivors_eq_some sub e e' h
  subst he'
  rw [bucketSurvivors]
  have hidem : (e.2.filter (fun cv => versionPasses sub cv)).filter
      (fun cv => versionPasses sub cv) = e.2.filter (fun cv => versionPasses sub cv) := by
    rw [List.filter_filter]
    simp
  rw [hidem, if_pos hlen]

theorem versionPasses_all_of_no_filters (sub : Subscription)
    (hopt : noOptionalFilters sub = true) (cv : ChartVersion) :
    versionPasses sub cv = true := by
  rcases hpf : sub.spec.packageFilter with - | pf
  · simp [versionPasses, checkKeywords, checkTillerVersion, checkVersion,
      keywordsChecker, hpf]
  · unfold noOptionalFilters at hopt
    rw [hpf] at hopt
    simp only at hopt
    rcases hsel : pf.labelSelector with - | s
    · rcases hann : pf.annotations with - | ann
      · rw [hsel, hann] at hopt
        simp only [Bool.true_and, beq_iff_eq] at hopt
        simp [versionPasses, checkKeywords, checkTillerVersion, checkVersion,
          keywordsChecker, hpf, hsel, hann, hopt]
      · rw [hsel, hann] at hopt
        simp only [Bool.true_and, Bool.and_eq_true, Option.isNone_iff_eq_none,
          beq_iff_eq] at hopt
        obtain ⟨hlk, hver⟩ := hopt
        simp [versionPasses, checkKeywords, checkTillerVersion, checkVersion,
          keywordsChecker, hpf, hsel, hann, hlk, hver]
    · rw [hsel] at hopt
      simp at hopt

/-! ## Concrete fixtures for counterexamples and witnesses -/

/-- A subscription with an empty `spec.Package` and no filters. -/
def subEmptyName : Subscription := ⟨"ns", "nm", ⟨"", none, []⟩⟩

/-- A subscription filtering on `tillerVersion = "1.0.0"`. -/
def subTillerLiteral : Subscription :=
  ⟨"ns", "nm", ⟨"app", some ⟨"", some [("tillerVersion", "1.0.0")], none⟩, []⟩⟩

/-- A subscription whose `tillerVersion` annotation is the range
expression `">=2.0.0"`. -/
def subTillerRange : Subscription :=
  ⟨"ns", "nm", ⟨"app", some ⟨"", some [("tillerVersion", ">=2.0.0")], none⟩, []⟩⟩

/-- A chart version of `app` with no tiller version. -/
def cvNoTiller : ChartVersion := ⟨⟨"app", "1.0.0", "", []⟩, [], ""⟩

/-- A chart version of `app` whose tiller version is `2.5.0`. -/
def cvTiller250 : ChartVersion := ⟨⟨"app", "1.0.0", "2.5.0", []⟩, [], ""⟩

/-- A chart version of `app` at version `1.0.0`. -/
def cvApp100 : ChartVersion := ⟨⟨"app", "1.0.0", "", []⟩, [], ""⟩

/-- A chart version of `app` at version `2.0.0`. -/
def cvApp200 : ChartVersion := ⟨⟨"app", "2.0.0", "", []⟩, [], ""⟩

/-- A chart version whose version string is not semantic-version
syntax. -/
def cvBadVersion : ChartVersion := ⟨⟨"app", "not-a-version", "", []⟩, [], ""⟩

/-- A subscription whose only set field is the package name `app`. -/
def subNameOnly : Subscription := ⟨"ns", "nm", ⟨"app", none, []⟩⟩

/-- A subscription filtering on the version range `">=1.0.0"`. -/
def subVersionRange : Subscription :=
  ⟨"ns", "nm", ⟨"app", some ⟨">=1.0.0", none, none⟩, []⟩⟩

/-- The index `genLoop` accumulates for the single chart directory
`"r/c/"` under repo root `"r"` with `loadAlwaysOk`: base directory `""`,
so the archive URL is the bare folder name. -/
def idxBuiltApp : IndexFile :=
  ⟨[("app", [⟨⟨"app", "1.0.0", "", []⟩, ["c"],
    "generated-by-multicloud-operators-subscription"⟩])]⟩

/-- A loader that fails on every location. -/
def loadAlwaysFails : String → Except String ChartMetadata :=
  fun _ => .error "open Chart.yaml: no such file or directory"

/-- A loader that succeeds on every location with a fixed manifest. -/
def loadAlwaysOk : String → Except String ChartMetadata :=
  fun _ => .ok ⟨"app", "1.0.0", "", []⟩

/-! ## Claim theorems -/

/-- C9: `removeNoMatchingName` is atomic on error — with an empty
`sub.Spec.Package` it returns the missing-name error and the index
exactly as given, performing no deletion. -/
theorem C9_remove_error_no_mutation (sub : Subscription) (idx : IndexFile)
    (h : sub.spec.package = "") :
    removeNoMatchingName sub idx =
      (idx, some ("subsciption.spec.name is missing for subscription: " ++
        sub.nspace ++ "/" ++ sub.name)) := by
  simp [removeNoMatchingName, h]

theorem C9_remove_error_no_mutation_witness :
    removeNoMatchingName subEmptyName ⟨[("app", [cvApp100])]⟩ =
      (⟨[("app", [cvApp100])]⟩, some ("subsciption.spec.name is missing for subscription: " ++
        "ns" ++ "/" ++ "nm")) :=
  C9_remove_error_no_mutation subEmptyName ⟨[("app", [cvApp100])]⟩ rfl

/-- C10: `GetPackageAlias` returns the alias of the first override whose
name matches and whose alias is non-empty (scanning past matching
overrides with an empty alias), and `""` when there is none. -/
theorem C10_getPackageAlias_first_nonempty (sub : Subscription) (packageName : String) :
    getPackageAlias sub packageName =
      (match sub.spec.packageOverrides.find?
          (fun o => o.packageName == packageName && !(o.packageAlias == "")) with
       | some o => o.packageAlias
       | none => "") := by
  show getPackageAliasLoop packageName sub.spec.packageOverrides = _
  induction sub.spec.packageOverrides with
  | nil => rfl
  | cons o t ih =>
    rw [getPackageAliasLoop, List.find?]
    cases hname : (o.packageName == packageName) <;>
      cases halias : (o.packageAlias == "") <;>
      simp [hname, halias, ih]

/-- C2 (amended): when the `tillerVersion` annotation filter is set but
the chart version's tiller version is empty, `checkTillerVersion`
returns `true` — the version passes, it is not dropped. -/
theorem C2_empty_tiller_passes (sub : Subscription) (cv : ChartVersion)
    (pf : PackageFilter) (ann : List (String × String)) (f : String)
    (hpf : sub.spec.packageFilter = some pf) (hann : pf.annotations = some ann)
    (hf : mapLookup ann "tillerVersion" = some f)
    (htv : cv.getTillerVersion = "") :
    checkTillerVersion sub cv = true := by
  simp [checkTillerVersion, hpf, hann, hf, htv]

theorem C2_empty_tiller_passes_witness :
    checkTillerVersion subTillerLiteral cvNoTiller = true :=
  C2_empty_tiller_passes subTillerLiteral cvNoTiller
    ⟨"", some [("tillerVersion", "1.0.0")], none⟩ [("tillerVersion", "1.0.0")] "1.0.0"
    rfl rfl rfl rfl

/-- C2 counterexample: a subscription whose `tillerVersion` filter is
set and a chart version with an empty tiller version on which
`checkTillerVersion` returns `true`, not `false` as the claim states. -/
theorem C2_empty_tiller_cex :
    mapLookup [("tillerVersion", "1.0.0")] "tillerVersion" = some "1.0.0" ∧
    cvNoTiller.getTillerVersion = "" ∧
    checkTillerVersion subTillerLiteral cvNoTiller = true := by
  refine ⟨rfl, rfl, ?_⟩
  decide

/-- C7: a chart version whose version string does not parse is excluded
by `checkVersion` when the version-range filter is set — and then the
whole per-version conjunction fails, so only its own bucket position is
affected while every other entry of the index is processed as usual —
but is kept when no version filter is configured. -/
theorem C7_malformed_version_nonfatal (sub : Subscription) (cv : ChartVersion)
    (hbad : parseVersion cv.getVersion = none) :
    ((∃ pf, sub.spec.packageFilter = some pf ∧ pf.version ≠ "") →
      checkVersion sub cv = false ∧
      ∀ (pre post : List (String × List ChartVersion)) (k : String),
        filterOnVersion sub ⟨pre ++ (k, [cv]) :: post⟩ =
          ⟨(filterOnVersion sub ⟨pre⟩).entries ++ (filterOnVersion sub ⟨post⟩).entries⟩) ∧
    ((sub.spec.packageFilter = none ∨
      ∃ pf, sub.spec.packageFilter = some pf ∧ pf.version = "") →
      checkVersion sub cv = true) := by
  constructor
  · rintro ⟨pf, hpf, hne⟩
    have hfalse : checkVersion sub cv = false := by
      simp [checkVersion, hpf, hbad, hne]
    refine ⟨hfalse, ?_⟩
    intro pre post k
    have hpass : versionPasses sub cv = false := by
      simp [versionPasses, hfalse]
    simp [filterOnVersion, List.filterMap_append, bucketSurvivors, hpass]
  · rintro (hpf | ⟨pf, hpf, hv⟩)
    · simp [checkVersion, hpf]
    · simp [checkVersion, hpf, hv]

/-- C4: with a non-empty `sub.Spec.Package`, the filtered index is a
subset of the input by bucket and by element — every surviving bucket's
key already keyed a bucket of the input of which the surviving versions
are a subsequence — and every surviving bucket is non-empty. -/
theorem C4_filtered_subset_nonempty (sub : Subscription) (idx : IndexFile)
    (h : sub.spec.package ≠ "") :
    ∀ k vs, (k, vs) ∈ (filterCharts sub idx).entries →
      vs ≠ [] ∧ ∃ vs0, (k, vs0) ∈ idx.entries ∧ vs.Sublist vs0 := by
  intro k vs hmem
  have hrm : (removeNoMatchingName sub idx).1 =
      ⟨idx.entries.filter (fun e => e.1 == sub.spec.package)⟩ := by
    simp [removeNoMatchingName, h]
  rw [filterCharts, hrm, filterOnVersion] at hmem
  rw [show (IndexFile.mk (List.filterMap (bucketSurvivors sub)
      (idx.entries.filter (fun e => e.1 == sub.spec.package)))).entries =
      List.filterMap (bucketSurvivors sub)
        (idx.entries.filter (fun e => e.1 == sub.spec.package)) from rfl,
    List.mem_filterMap] at hmem
  obtain ⟨e, he, hge⟩ := hmem
  obtain ⟨heq, hlen⟩ := bucketSurvivors_eq_some sub e (k, vs) hge
  have hk : k = e.1 := congrArg Prod.fst heq
  have hvs : vs = e.2.filter (fun cv => versionPasses sub cv) := congrArg Prod.snd heq
  constructor
  · rw [hvs]
    exact List.ne_nil_of_length_pos hlen
  · refine ⟨e.2, ?_, ?_⟩
    · have he' : e ∈ idx.entries := List.mem_of_mem_filter he
      rw [hk]
      exact he'
    · rw [hvs]
      exact List.filter_sublist e.2

theorem C4_filtered_subset_nonempty_witness :
    [cvApp100, cvApp200] ≠ ([] : List ChartVersion) ∧
    ∃ vs0, ("app", vs0) ∈
        (⟨[("app", [cvApp100, cvApp200])]⟩ : IndexFile).entries ∧
      List.Sublist [cvApp100, cvApp200] vs0 :=
  C4_filtered_subset_nonempty subVersionRange ⟨[("app", [cvApp100, cvApp200])]⟩
    (by decide) "app" [cvApp100, cvApp200] (by decide)

/-- C5: when the only set field of the policy is a non-empty package
name — no label selector, no `tillerVersion` annotation, no version
range — filtering keeps exactly the buckets keyed by the package name,
with all versions intact and in order (given the index invariant that
buckets are non-empty). -/
theorem C5_name_only_keeps_bucket_intact (sub : Subscription) (idx : IndexFile)
    (h : sub.spec.package ≠ "") (hopt : noOptionalFilters sub = true)
    (hinv : ∀ e ∈ idx.entries, e.2 ≠ []) :
    (filterCharts sub idx).entries =
      idx.entries.filter (fun e => e.1 == sub.spec.package) := by
  have hrm : (removeNoMatchingName sub idx).1 =
      ⟨idx.entries.filter (fun e => e.1 == sub.spec.package)⟩ := by
    simp [removeNoMatchingName, h]
  rw [filterCharts, hrm, filterOnVersion]
  apply filterMap_id_of_mem
  intro e he
  have hne : e.2 ≠ [] := hinv e (List.mem_of_mem_filter he)
  rw [bucketSurvivors]
  have hfe : e.2.filter (fun cv => versionPasses sub cv) = e.2 :=
    List.filter_eq_self.mpr (fun a _ => versionPasses_all_of_no_filters sub hopt a)
  rw [hfe, if_pos (List.length_pos.mpr hne)]

theorem C5_name_only_keeps_bucket_intact_witness :
    (filterCharts subNameOnly
        ⟨[("app", [cvApp100, cvApp200]), ("other", [cvApp100])]⟩).entries =
      (⟨[("app", [cvApp100, cvApp200]), ("other", [cvApp100])]⟩ : IndexFile).entries.filter
        (fun e => e.1 == "app") :=
  C5_name_only_keeps_bucket_intact subNameOnly
    ⟨[("app", [cvApp100, cvApp200]), ("other", [cvApp100])]⟩
    (by decide) (by decide) (by decide)

/-- C6: filtering is idempotent — applying `filterCharts` with the same
subscription to an already-filtered index changes nothing. -/
theorem C6_filterCharts_idempotent (sub : Subscription) (idx : IndexFile)
    (h : sub.spec.package ≠ "") :
    filterCharts sub (filterCharts sub idx) = filterCharts sub idx := by
  have hrm : ∀ j : IndexFile, (removeNoMatchingName sub j).1 =
      ⟨j.entries.filter (fun e => e.1 == sub.spec.package)⟩ := by
    intro j
    simp [removeNoMatchingName, h]
  simp only [filterCharts, hrm, filterOnVersion]
  refine congrArg IndexFile.mk ?_
  have h1 : (List.filterMap (bucketSurvivors sub)
        (idx.entries.filter (fun e => e.1 == sub.spec.package))).filter
        (fun e => e.1 == sub.spec.package) =
      List.filterMap (bucketSurvivors sub)
        (idx.entries.filter (fun e => e.1 == sub.spec.package)) := by
    apply List.filter_eq_self.mpr
    intro e' he'
    rw [List.mem_filterMap] at he'
    obtain ⟨e, he, hge⟩ := he'
    obtain ⟨heq, -⟩ := bucketSurvivors_eq_some sub e e' hge
    have hpe : (e.1 == sub.spec.package) = true := (List.mem_filter.mp he).2
    rw [heq]
    exact hpe
  rw [h1]
  apply filterMap_id_of_mem
  intro e' he'
  rw [List.mem_filterMap] at he'
  obtain ⟨e, he, hge⟩ := he'
  exact bucketSurvivors_fixed sub e e' hge

theorem C6_filterCharts_idempotent_witness :
    filterCharts subVersionRange
        (filterCharts subVersionRange ⟨[("app", [cvApp100, cvApp200])]⟩) =
      filterCharts subVersionRange ⟨[("app", [cvApp100, cvApp200])]⟩ :=
  C6_filterCharts_idempotent subVersionRange ⟨[("app", [cvApp100, cvApp200])]⟩
    (by decide)

/-- C1 (amended): with an empty `sub.Spec.Package`,
`removeNoMatchingName` does produce the missing-name error, but
`filterCharts` discards it (`_ =`), so whenever the build loop runs to
completion — every base-directory slice in range, every manifest loaded
— `GenerateHelmIndexFile` returns a nil error: the failure never
propagates to the caller. -/
theorem C1_missing_name_error_discarded (sub : Subscription)
    (h : sub.spec.package = "") :
    (∀ idx : IndexFile, (removeNoMatchingName sub idx).2 =
      some ("subsciption.spec.name is missing for subscription: " ++
        sub.nspace ++ "/" ++ sub.name)) ∧
    (∀ (load : String → Except String ChartMetadata) (root : String)
      (dirs : List String) (idx : IndexFile),
      genLoop load root dirs newIndexFile = .result idx none →
      generateHelmIndexFile load sub root dirs =
        .result (filterCharts sub (sortEntries idx)) none) := by
  constructor
  · intro idx
    simp [removeNoMatchingName, h]
  · intro load root dirs idx hok
    rw [generateHelmIndexFile, hok]

theorem C1_missing_name_error_discarded_witness :
    (removeNoMatchingName subEmptyName ⟨[("app", [cvApp100])]⟩).2 =
      some ("subsciption.spec.name is missing for subscription: " ++
        "ns" ++ "/" ++ "nm") ∧
    generateHelmIndexFile loadAlwaysOk subEmptyName "r" ["r/c/"] =
      .result (filterCharts subEmptyName (sortEntries idxBuiltApp)) none :=
  ⟨(C1_missing_name_error_discarded subEmptyName rfl).1 ⟨[("app", [cvApp100])]⟩,
   (C1_missing_name_error_discarded subEmptyName rfl).2 loadAlwaysOk "r" ["r/c/"]
     idxBuiltApp (by decide)⟩

/-- C1 counterexample: a subscription with an empty `spec.Package` and a
run whose single chart directory `"r/c/"` under repo root `"r"` derives
its base directory in range and loads — yet `GenerateHelmIndexFile`
returns the built index with a nil error: the
`MissingRequiredFieldError` does not propagate to the caller. -/
theorem C1_error_not_propagated_cex :
    subEmptyName.spec.package = "" ∧
    generateHelmIndexFile loadAlwaysOk subEmptyName "r" ["r/c/"] =
      .result idxBuiltApp none := by
  constructor
  · rfl
  · decide

/-- C3 (amended): when the `tillerVersion` filter and the chart's tiller
version are both present, `checkTillerVersion` parses the CHART's tiller
version as the range and the FILTER's value as the exact candidate —
the converse of the claimed `(secondaryToolVersionRange,
secondaryToolVersion)` orientation. -/
theorem C3_secondary_roles_swapped (sub : Subscription) (cv : ChartVersion)
    (pf : PackageFilter) (ann : List (String × String)) (f : String)
    (hpf : sub.spec.packageFilter = some pf) (hann : pf.annotations = some ann)
    (hf : mapLookup ann "tillerVersion" = some f)
    (htv : cv.getTillerVersion ≠ "") :
    checkTillerVersion sub cv = specSecondaryCheck cv.getTillerVersion f := by
  simp only [checkTillerVersion, hpf, hann, hf, specSecondaryCheck]
  rw [if_pos]
  · rcases h1 : parseRange cv.getTillerVersion with - | r
    · simp [h1]
    · rcases h2 : parseVersion f with - | v <;> simp [h1, h2]
  · simpa using htv

theorem C3_secondary_roles_swapped_witness :
    checkTillerVersion subTillerRange cvTiller250 =
      specSecondaryCheck cvTiller250.getTillerVersion ">=2.0.0" :=
  C3_secondary_roles_swapped subTillerRange cvTiller250
    ⟨"", some [("tillerVersion", ">=2.0.0")], none⟩ [("tillerVersion", ">=2.0.0")]
    ">=2.0.0" rfl rfl rfl (by decide)

/-- C3 counterexample: with the policy annotation `">=2.0.0"` (a range)
and chart tiller version `"2.5.0"` (an exact version), the candidate
satisfies the range under the claimed orientation, yet
`checkTillerVersion` returns `false` — so the check does NOT succeed iff
the candidate satisfies the range taken from the policy. -/
theorem C3_argument_order_cex :
    checkTillerVersion subTillerRange cvTiller250 = false ∧
    specSecondaryCheck ">=2.0.0" "2.5.0" = true := by
  constructor
  · decide
  · decide

/-- The loop of `GenerateHelmIndexFile` aborts at the first failing
manifest load: when every earlier location derives its base directory
in range and loads, and the failing location's base directory is in
range, the locations before the failure are accumulated cleanly, the
error is returned, and the locations after it are never examined. -/
theorem genLoop_first_error (load : String → Except String ChartMetadata)
    (root : String) (e : String) (d : String) (dirs2 : List String)
    (hd : load (d ++ "Chart.yaml") = .error e)
    (hdok : baseDirSplit root d ≠ []) :
    ∀ (dirs1 : List String) (acc : IndexFile),
      (∀ d' ∈ dirs1, baseDirSplit root d' ≠ [] ∧
        ∃ md, load (d' ++ "Chart.yaml") = .ok md) →
      ∃ p : IndexFile, genLoop load root dirs1 acc = .result p none ∧
        genLoop load root (dirs1 ++ d :: dirs2) acc = .result p (some e) := by
  intro dirs1
  induction dirs1 with
  | nil =>
    intro acc _
    refine ⟨acc, rfl, ?_⟩
    rcases hsplit : baseDirSplit root d with - | ⟨b, t⟩
    · exact absurd hsplit hdok
    · simp [genLoop, hsplit, hd]
  | cons d' rest ih =>
    intro acc hall
    obtain ⟨hsplit', md, hmd⟩ := hall d' (List.mem_cons_self d' rest)
    rcases hs : baseDirSplit root d' with - | ⟨b, t⟩
    · exact absurd hs hsplit'
    · obtain ⟨p, h1, h2⟩ := ih
        (indexAdd acc md (filepathBase d') b
          "generated-by-multicloud-operators-subscription")
        (fun x hx => hall x (List.mem_cons_of_mem d' hx))
      refine ⟨p, ?_, ?_⟩
      · simp only [genLoop, hs, hmd]
        exact h1
      · rw [List.cons_append]
        simp only [genLoop, hs, hmd]
        exact h2

/-- C8: if loading the manifest of some location fails while all earlier
locations derive their base directories in range and load (and the
failing location's base directory is in range, so the run reaches the
load), `GenerateHelmIndexFile` returns exactly the partial index
accumulated before the failure together with the load error: the later
locations are never processed and no sorting or filtering touches the
returned structure. -/
theorem C8_load_failure_aborts (load : String → Except String ChartMetadata)
    (sub : Subscription) (root : String) (dirs1 : List String) (d : String)
    (dirs2 : List String) (e : String)
    (hd : load (d ++ "Chart.yaml") = .error e)
    (hdok : baseDirSplit root d ≠ [])
    (hok : ∀ d' ∈ dirs1, baseDirSplit root d' ≠ [] ∧
      ∃ md, load (d' ++ "Chart.yaml") = .ok md) :
    ∃ partialIdx : IndexFile,
      genLoop load root dirs1 newIndexFile = .result partialIdx none ∧
      generateHelmIndexFile load sub root (dirs1 ++ d :: dirs2) =
        .result partialIdx (some e) := by
  obtain ⟨p, h1, h2⟩ :=
    genLoop_first_error load root e d dirs2 hd hdok dirs1 newIndexFile hok
  exact ⟨p, h1, by rw [generateHelmIndexFile, h2]⟩

theorem C8_load_failure_aborts_witness :
    ∃ partialIdx : IndexFile,
      genLoop loadAlwaysFails "r" [] newIndexFile = .result partialIdx none ∧
      generateHelmIndexFile loadAlwaysFails subEmptyName "r" ([] ++ "r/c/" :: ["r/x/"]) =
        .result partialIdx (some "open Chart.yaml: no such file or directory") :=
  C8_load_failure_aborts loadAlwaysFails subEmptyName "r" [] "r/c/" ["r/x/"]
    "open Chart.yaml: no such file or directory" rfl (by decide) (by simp)

theorem C7_malformed_version_nonfatal_witness :
    checkVersion subVersionRange cvBadVersion = false ∧
    checkVersion subEmptyName cvBadVersion = true :=
  ⟨((C7_malformed_version_nonfatal subVersionRange cvBadVersion (by decide)).1
      ⟨⟨">=1.0.0", none, none⟩, rfl, by decide⟩).1,
   (C7_malformed_version_nonfatal subEmptyName cvBadVersion (by decide)).2 (Or.inl rfl)⟩

end HelmRepo
